import Mathlib

/-!
Verification of the visualization pipeline of `src/visualization.py`.

The data-manipulation core is embedded shallowly:

* `FitnessMatrix`, `CountMatrix`, `SignificanceMask` follow §3 of the spec: 2-D
  tables keyed by (sequence position, residue symbol), where the residue
  symbols include the sentinels `'*'` (stop) and `'∅'` (synonymous).  A missing
  fitness value (NaN in the source) is `none`.
* the noise filter and the Gaussian significance classifier are imported by
  `src/visualization.py` from the `fitness_analysis` module, which is not part
  of the given sources; they are modelled from the spec (§4.1, §4.2), as
  flagged on each definition.
* the pandas/numpy manipulations that are present in `src/visualization.py`
  (the shish-kabob cell selection, the significant-position computation, the
  iteration orders of the batch drawing functions, the trailing-digit drug
  grouping) are embedded directly from that file.
-/

/-- A fitness matrix (spec §3): rows are sequence positions, columns are
residue symbols; a cell is a fitness score or the missing-value marker
(`none`, NaN in the source). -/
structure FitnessMatrix where
  positions : List ℕ
  residues : List Char
  val : ℕ → Char → Option ℚ

/-- A count matrix (spec §3): same shape as a `FitnessMatrix`; a cell is a
non-negative integer read count. -/
structure CountMatrix where
  positions : List ℕ
  residues : List Char
  val : ℕ → Char → ℕ

/-- A boolean significance mask (spec §3), same shape as a `FitnessMatrix`. -/
structure SignificanceMask where
  positions : List ℕ
  residues : List Char
  val : ℕ → Char → Bool

/-- Modelled from the spec: `filter_fitness_read_noise` is imported by
`src/visualization.py` from the `fitness_analysis` module, which is not among
the given sources.  Per spec §4.1 it looks the sample up in both mappings
(failing when the sample is absent or the two matrices are misaligned) and
returns a copy of the sample's fitness matrix in which every cell whose paired
read count is strictly below `read_threshold` is replaced by the missing-value
marker, all other cells passing through unchanged. -/
def filter_fitness_read_noise (sample : String)
    (counts_dict : String → Option CountMatrix)
    (fitness_dict : String → Option FitnessMatrix)
    (read_threshold : ℕ) : Option FitnessMatrix :=
  match counts_dict sample, fitness_dict sample with
  | some cm, some fm =>
      if cm.positions = fm.positions ∧ cm.residues = fm.residues then
        some { positions := fm.positions
               residues := fm.residues
               val := fun p r =>
                 if cm.val p r < read_threshold then none else fm.val p r }
      else none
  | _, _ => none

/-- Example count matrix: position 0 / residue 'A' has 0 reads, every other
cell has 30 reads. -/
def cmEx : CountMatrix where
  positions := [0, 1]
  residues := ['A', '∅']
  val := fun p r => if p = 0 ∧ r = 'A' then 0 else 30

/-- Example fitness matrix paired with `cmEx`. -/
def fmEx : FitnessMatrix where
  positions := [0, 1]
  residues := ['A', '∅']
  val := fun p r => if p = 0 ∧ r = 'A' then some 1 else some 2

/-- Example count matrix with every cell backed by 30 reads. -/
def cmFull : CountMatrix where
  positions := [0, 1]
  residues := ['A', '∅']
  val := fun _ _ => 30

/-- Example counts mapping. -/
def countsDictEx : String → Option CountMatrix :=
  fun s => if s = "AMP1" then some cmEx else if s = "AMP2" then some cmFull else none

/-- Example fitness mapping. -/
def fitnessDictEx : String → Option FitnessMatrix :=
  fun s => if s = "AMP1" ∨ s = "AMP2" then some fmEx else none

/-- C1: for every sample present in both mappings (with aligned shapes), the
noise filter succeeds and returns a matrix in which every cell whose paired
count is strictly below `read_threshold` is the missing-value marker and every
cell whose count meets the threshold carries the input fitness value
unchanged. -/
theorem claim_C1_noise_filter_thresholds (sample : String)
    (counts_dict : String → Option CountMatrix)
    (fitness_dict : String → Option FitnessMatrix)
    (read_threshold : ℕ) (cm : CountMatrix) (fm : FitnessMatrix)
    (hc : counts_dict sample = some cm)
    (hf : fitness_dict sample = some fm)
    (halign : cm.positions = fm.positions ∧ cm.residues = fm.residues) :
    ∃ g, filter_fitness_read_noise sample counts_dict fitness_dict read_threshold
        = some g ∧
      ∀ p r, (cm.val p r < read_threshold → g.val p r = none) ∧
        (read_threshold ≤ cm.val p r → g.val p r = fm.val p r) := by
  refine ⟨⟨fm.positions, fm.residues,
      fun p r => if cm.val p r < read_threshold then none else fm.val p r⟩, ?_, ?_⟩
  · simp [filter_fitness_read_noise, hc, hf, halign]
  · intro p r
    constructor
    · intro hlt
      simp [hlt]
    · intro hge
      simp [Nat.not_lt.mpr hge]

/-- Witness for C1 at the concrete sample `"AMP1"` with threshold 20. -/
theorem claim_C1_noise_filter_thresholds_witness :
    countsDictEx "AMP1" = some cmEx ∧ fitnessDictEx "AMP1" = some fmEx ∧
      (cmEx.positions = fmEx.positions ∧ cmEx.residues = fmEx.residues) ∧
      ∃ g, filter_fitness_read_noise "AMP1" countsDictEx fitnessDictEx 20 = some g ∧
        ∀ p r, (cmEx.val p r < 20 → g.val p r = none) ∧
          (20 ≤ cmEx.val p r → g.val p r = fmEx.val p r) :=
  ⟨rfl, rfl, ⟨rfl, rfl⟩,
    claim_C1_noise_filter_thresholds "AMP1" countsDictEx fitnessDictEx 20 cmEx fmEx
      rfl rfl ⟨rfl, rfl⟩⟩

/-- C6 counterexample: with `read_threshold = 1` the filter is not the
identity: at sample `"AMP1"`, cell (0, 'A') has 0 reads, so its fitness value
`some 1` is replaced by the missing-value marker. -/
theorem claim_C6_counterexample :
    (filter_fitness_read_noise "AMP1" countsDictEx fitnessDictEx 1).map
        (fun g => g.val 0 'A') = some none ∧
      fmEx.val 0 'A' = some 1 := by
  constructor <;> rfl

/-- C6 amended: with `read_threshold = 1`, a cell is filtered exactly when its
read count is 0; in particular, when every count of the sample's count matrix
is at least 1, the filter returns the fitness matrix unchanged cell-for-cell. -/
theorem claim_C6_threshold_one_amended (sample : String)
    (counts_dict : String → Option CountMatrix)
    (fitness_dict : String → Option FitnessMatrix)
    (cm : CountMatrix) (fm : FitnessMatrix)
    (hc : counts_dict sample = some cm)
    (hf : fitness_dict sample = some fm)
    (halign : cm.positions = fm.positions ∧ cm.residues = fm.residues)
    (hcounts : ∀ p r, 1 ≤ cm.val p r) :
    ∃ g, filter_fitness_read_noise sample counts_dict fitness_dict 1 = some g ∧
      ∀ p r, g.val p r = fm.val p r := by
  refine ⟨⟨fm.positions, fm.residues,
      fun p r => if cm.val p r < 1 then none else fm.val p r⟩,
    by simp [filter_fitness_read_noise, hc, hf, halign], ?_⟩
  intro p r
  simp [Nat.not_lt.mpr (hcounts p r)]

/-- Witness for the amended C6 at the concrete sample `"AMP2"`, whose counts
are all 30. -/
theorem claim_C6_threshold_one_amended_witness :
    countsDictEx "AMP2" = some cmFull ∧ fitnessDictEx "AMP2" = some fmEx ∧
      (cmFull.positions = fmEx.positions ∧ cmFull.residues = fmEx.residues) ∧
      (∀ p r, 1 ≤ cmFull.val p r) ∧
      ∃ g, filter_fitness_read_noise "AMP2" countsDictEx fitnessDictEx 1 = some g ∧
        ∀ p r, g.val p r = fmEx.val p r :=
  ⟨rfl, rfl, ⟨rfl, rfl⟩, fun _ _ => by simp [cmFull],
    claim_C6_threshold_one_amended "AMP2" countsDictEx fitnessDictEx cmFull fmEx
      rfl rfl ⟨rfl, rfl⟩ (fun _ _ => by simp [cmFull])⟩

/-- Modelled from the spec: the neutral population of `gaussian_significance`
(spec §4.2 step 1), a function of the `fitness_analysis` module absent from
the given sources.  It collects, over the shared position index, the pairs of
values of the SYNONYMOUS (`'∅'`) column that are present in both matrices;
cells missing in either matrix contribute nothing. -/
def neutral_population (fx fy : FitnessMatrix) : List (ℚ × ℚ) :=
  fx.positions.filterMap fun p =>
    match fx.val p '∅', fy.val p '∅' with
    | some a, some b => some (a, b)
    | _, _ => none

/-- Sum of a list of rationals. -/
def listSum (l : List ℚ) : ℚ := l.foldr (· + ·) 0

/-- Mean of the first coordinates of a point cloud. -/
def mean_x (pop : List (ℚ × ℚ)) : ℚ := listSum (pop.map Prod.fst) / pop.length

/-- Mean of the second coordinates of a point cloud. -/
def mean_y (pop : List (ℚ × ℚ)) : ℚ := listSum (pop.map Prod.snd) / pop.length

/-- Sample covariance entry Σ(x-mx)² / (n-1). -/
def cov_xx (pop : List (ℚ × ℚ)) : ℚ :=
  listSum (pop.map fun q => (q.1 - mean_x pop) ^ 2) / ((pop.length : ℚ) - 1)

/-- Sample covariance entry Σ(x-mx)(y-my) / (n-1). -/
def cov_xy (pop : List (ℚ × ℚ)) : ℚ :=
  listSum (pop.map fun q => (q.1 - mean_x pop) * (q.2 - mean_y pop)) /
    ((pop.length : ℚ) - 1)

/-- Sample covariance entry Σ(y-my)² / (n-1). -/
def cov_yy (pop : List (ℚ × ℚ)) : ℚ :=
  listSum (pop.map fun q => (q.2 - mean_y pop) ^ 2) / ((pop.length : ℚ) - 1)

/-- The fitted 2-D Gaussian (spec §4.2 step 2): sample mean and covariance of
the neutral population. -/
structure GaussianFit where
  cx : ℚ
  cy : ℚ
  sxx : ℚ
  sxy : ℚ
  syy : ℚ
deriving DecidableEq

/-- Modelled from the spec: the 2-D Gaussian fit of `gaussian_significance`
(spec §4.2 step 2), from the `fitness_analysis` module absent from the given
sources. -/
def fit_of (pop : List (ℚ × ℚ)) : GaussianFit where
  cx := mean_x pop
  cy := mean_y pop
  sxx := cov_xx pop
  sxy := cov_xy pop
  syy := cov_yy pop

/-- Determinant of the fitted covariance matrix. -/
def covDet (f : GaussianFit) : ℚ := f.sxx * f.syy - f.sxy ^ 2

/-- Modelled from the spec: the squared Mahalanobis deviation of a point from
the fitted neutral mean (spec §4.2 step 4), using the inverse covariance
`Σ⁻¹ = (1/det) [[syy, -sxy], [-sxy, sxx]]`. -/
def mahalanobis_sq (f : GaussianFit) (x y : ℚ) : ℚ :=
  (f.syy * (x - f.cx) ^ 2 - 2 * f.sxy * (x - f.cx) * (y - f.cy)
      + f.sxx * (y - f.cy) ^ 2) / covDet f

/-- A point lies outside the `sigma_cutoff`-level ellipse iff its standardized
distance from the neutral mean exceeds `sigma_cutoff` (spec §4.2 step 4),
i.e. its squared Mahalanobis deviation exceeds `sigma_cutoff²`. -/
def outside_cutoff (f : GaussianFit) (sigma_cutoff : ℕ) (x y : ℚ) : Bool :=
  decide ((sigma_cutoff : ℚ) ^ 2 < mahalanobis_sq f x y)

/-- Modelled from the spec: the SENSITIVE mask of `gaussian_significance`
(spec §4.2 step 5, refined by §9): a cell present in both matrices is
sensitive when it lies outside the cutoff ellipse and strictly in the
"both lower" quadrant relative to the fitted center; a cell missing in either
matrix is never flagged. -/
def sign_sensitive (fx fy : FitnessMatrix) (sigma_cutoff : ℕ) : SignificanceMask where
  positions := fx.positions
  residues := fx.residues
  val := fun p r =>
    let f := fit_of (neutral_population fx fy)
    match fx.val p r, fy.val p r with
    | some x, some y =>
        outside_cutoff f sigma_cutoff x y && decide (x < f.cx) && decide (y < f.cy)
    | _, _ => false

/-- Modelled from the spec: the RESISTANT mask of `gaussian_significance`
(spec §4.2 step 5, refined by §9): a cell present in both matrices is
resistant when it lies outside the cutoff ellipse and strictly in the
"both higher" quadrant relative to the fitted center; a cell missing in
either matrix is never flagged. -/
def sign_resistant (fx fy : FitnessMatrix) (sigma_cutoff : ℕ) : SignificanceMask where
  positions := fx.positions
  residues := fx.residues
  val := fun p r =>
    let f := fit_of (neutral_population fx fy)
    match fx.val p r, fy.val p r with
    | some x, some y =>
        outside_cutoff f sigma_cutoff x y && decide (f.cx < x) && decide (f.cy < y)
    | _, _ => false

/-- C2: for every pair of aligned input matrices and every sigma cutoff, the
sensitive and resistant masks of the significance classifier are disjoint:
no cell is true in both. -/
theorem claim_C2_masks_disjoint (fx fy : FitnessMatrix) (sigma_cutoff : ℕ)
    (p : ℕ) (r : Char) :
    ((sign_sensitive fx fy sigma_cutoff).val p r &&
      (sign_resistant fx fy sigma_cutoff).val p r) = false := by
  simp only [sign_sensitive, sign_resistant]
  cases hx : fx.val p r with
  | none => simp
  | some x =>
    cases hy : fy.val p r with
    | none => simp
    | some y =>
      simp only
      cases h1 : decide (x < (fit_of (neutral_population fx fy)).cx) with
      | false => simp [h1]
      | true =>
        cases h2 : decide ((fit_of (neutral_population fx fy)).cx < x) with
        | false => simp [h2]
        | true =>
          exact absurd (of_decide_eq_true h2) (lt_asymm (of_decide_eq_true h1))

/-- C3: a cell missing in either input matrix is false in both output masks,
and every point of the fitted neutral population comes from a synonymous cell
whose value is present in both matrices (missing cells are excluded from the
covariance fit). -/
theorem claim_C3_missing_cells_unclassified (fx fy : FitnessMatrix)
    (sigma_cutoff : ℕ) (p : ℕ) (r : Char) :
    ((((fx.val p r).isNone || (fy.val p r).isNone) &&
        ((sign_sensitive fx fy sigma_cutoff).val p r ||
          (sign_resistant fx fy sigma_cutoff).val p r)) = false) ∧
      ∀ q ∈ neutral_population fx fy,
        ∃ p2, p2 ∈ fx.positions ∧ fx.val p2 '∅' = some q.1 ∧
          fy.val p2 '∅' = some q.2 := by
  constructor
  · simp only [sign_sensitive, sign_resistant]
    cases hx : fx.val p r with
    | none => simp
    | some x =>
      cases hy : fy.val p r with
      | none => simp
      | some y => simp
  · intro q hq
    obtain ⟨p2, hp2, hval⟩ := List.mem_filterMap.mp hq
    refine ⟨p2, hp2, ?_⟩
    cases hx : fx.val p2 '∅' with
    | none => simp [hx] at hval
    | some a =>
      cases hy : fy.val p2 '∅' with
      | none => simp [hx, hy] at hval
      | some b =>
        simp only [hx, hy, Option.some.injEq] at hval
        cases hval
        exact ⟨rfl, rfl⟩

/-- Half the trace of the fitted covariance: the mean of its two
eigenvalues. -/
def eig_mean (f : GaussianFit) : ℚ := (f.sxx + f.syy) / 2

/-- The discriminant term of the eigen-decomposition of the fitted
covariance: `((sxx - syy)/2)² + sxy²`, whose square root separates the two
eigenvalues from their mean. -/
def eig_disc (f : GaussianFit) : ℚ := ((f.sxx - f.syy) / 2) ^ 2 + f.sxy ^ 2

/-- The larger eigenvalue of the fitted 2×2 covariance matrix. -/
noncomputable def eig_large (f : GaussianFit) : ℝ :=
  (eig_mean f : ℝ) + Real.sqrt (eig_disc f)

/-- The smaller eigenvalue of the fitted 2×2 covariance matrix. -/
noncomputable def eig_small (f : GaussianFit) : ℝ :=
  (eig_mean f : ℝ) - Real.sqrt (eig_disc f)

/-- An ellipse descriptor (spec §3): center, full axis widths and rotation
angle of a confidence contour in the (replicate-1, replicate-2) plane. -/
structure EllipseDescriptor where
  center_x : ℚ
  center_y : ℚ
  width : ℝ
  height : ℝ
  angle : ℝ

/-- Modelled from the spec: the contour ellipse of `gaussian_significance` at
one integer sigma multiple (spec §4.2 step 3, `fitness_analysis` module absent
from the given sources): centered at the fitted mean, axis widths equal to the
square roots of the covariance eigenvalues scaled by the sigma multiple, and
rotated by the angle of the covariance's principal axis. -/
noncomputable def ellipse_at (f : GaussianFit) (s : ℕ) : EllipseDescriptor where
  center_x := f.cx
  center_y := f.cy
  width := 2 * (s : ℝ) * Real.sqrt (eig_large f)
  height := 2 * (s : ℝ) * Real.sqrt (eig_small f)
  angle := Real.arctan (2 * f.sxy / (f.sxx - f.syy)) / 2

/-- Modelled from the spec: the ordered family of contour ellipses returned by
`gaussian_significance`, one per integer sigma multiple from 1 to
`sigma_cutoff` (spec §4.2 step 3). -/
noncomputable def ellipses_all (fx fy : FitnessMatrix) (sigma_cutoff : ℕ) :
    List (ℕ × EllipseDescriptor) :=
  (List.range' 1 sigma_cutoff).map fun s =>
    (s, ellipse_at (fit_of (neutral_population fx fy)) s)

/-- Modelled from the spec: the full contract of `gaussian_significance`
(spec §4.2): the sensitive mask, the resistant mask and the family of
contour ellipses. -/
noncomputable def gaussian_significance (fx fy : FitnessMatrix)
    (sigma_cutoff : ℕ) :
    SignificanceMask × SignificanceMask × List (ℕ × EllipseDescriptor) :=
  (sign_sensitive fx fy sigma_cutoff, sign_resistant fx fy sigma_cutoff,
    ellipses_all fx fy sigma_cutoff)

lemma eig_mean_sq_sub_disc (f : GaussianFit) :
    eig_mean f ^ 2 - eig_disc f = covDet f := by
  simp only [eig_mean, eig_disc, covDet]
  ring

lemma eig_small_pos (f : GaussianFit) (htr : 0 < f.sxx + f.syy)
    (hdet : 0 < covDet f) : 0 < eig_small f := by
  have hm : (0 : ℚ) < eig_mean f := by
    simp only [eig_mean]
    linarith
  have hdlt : eig_disc f < eig_mean f ^ 2 := by
    have := eig_mean_sq_sub_disc f
    linarith
  have hmR : (0 : ℝ) < (eig_mean f : ℝ) := by exact_mod_cast hm
  have hdltR : ((eig_disc f : ℚ) : ℝ) < ((eig_mean f : ℚ) : ℝ) ^ 2 := by
    exact_mod_cast hdlt
  have hsqrt : Real.sqrt (eig_disc f) < (eig_mean f : ℝ) :=
    (Real.sqrt_lt' hmR).mpr hdltR
  simp only [eig_small]
  linarith

lemma eig_small_le_large (f : GaussianFit) : eig_small f ≤ eig_large f := by
  simp only [eig_small, eig_large]
  have := Real.sqrt_nonneg ((eig_disc f : ℚ) : ℝ)
  linarith

/-- C4: within one classifier invocation, the ellipse descriptors for sigma
levels `s1 < s2` share the same center and rotation angle and the `s1`-ellipse
has strictly smaller axes (given a non-degenerate fitted covariance: positive
trace and determinant), so the `s1`-ellipse is strictly contained within the
`s2`-ellipse. -/
theorem claim_C4_ellipses_nested (fx fy : FitnessMatrix) (sigma_cutoff : ℕ)
    (s1 s2 : ℕ) (e1 e2 : EllipseDescriptor)
    (h1 : (s1, e1) ∈ ellipses_all fx fy sigma_cutoff)
    (h2 : (s2, e2) ∈ ellipses_all fx fy sigma_cutoff)
    (hlt : s1 < s2)
    (htr : 0 < (fit_of (neutral_population fx fy)).sxx +
      (fit_of (neutral_population fx fy)).syy)
    (hdet : 0 < covDet (fit_of (neutral_population fx fy))) :
    e1.center_x = e2.center_x ∧ e1.center_y = e2.center_y ∧
      e1.angle = e2.angle ∧ e1.width < e2.width ∧ e1.height < e2.height := by
  obtain ⟨a1, _, hae1⟩ := List.mem_map.mp h1
  obtain ⟨a2, _, hae2⟩ := List.mem_map.mp h2
  rw [Prod.mk.injEq] at hae1 hae2
  obtain ⟨rfl, rfl⟩ := hae1
  obtain ⟨rfl, rfl⟩ := hae2
  have hsmall : 0 < eig_small (fit_of (neutral_population fx fy)) :=
    eig_small_pos _ htr hdet
  have hlarge : 0 < eig_large (fit_of (neutral_population fx fy)) :=
    lt_of_lt_of_le hsmall (eig_small_le_large _)
  have hcast : (a1 : ℝ) < (a2 : ℝ) := by exact_mod_cast hlt
  refine ⟨rfl, rfl, rfl, ?_, ?_⟩
  · exact mul_lt_mul_of_pos_right (by linarith) (Real.sqrt_pos.mpr hlarge)
  · exact mul_lt_mul_of_pos_right (by linarith) (Real.sqrt_pos.mpr hsmall)

/-- Example fitness matrix: replicate one of the concrete classifier input.
Its synonymous column over positions 0–3 is `[0, 2, 2, 0]`, and cell
(0, 'A') holds `-5`. -/
def dfX : FitnessMatrix where
  positions := [0, 1, 2, 3]
  residues := ['∅', 'A']
  val := fun p r =>
    if r = '∅' then
      if p = 0 then some 0 else if p = 1 then some 2
      else if p = 2 then some 2 else if p = 3 then some 0 else none
    else if r = 'A' ∧ p = 0 then some (-5) else none

/-- Example fitness matrix: replicate two of the concrete classifier input.
Its synonymous column over positions 0–3 is `[0, 2, 0, 2]`, and cell
(0, 'A') holds `-5`. -/
def dfY : FitnessMatrix where
  positions := [0, 1, 2, 3]
  residues := ['∅', 'A']
  val := fun p r =>
    if r = '∅' then
      if p = 0 then some 0 else if p = 1 then some 2
      else if p = 2 then some 0 else if p = 3 then some 2 else none
    else if r = 'A' ∧ p = 0 then some (-5) else none

/-- The Gaussian fit of the concrete example pair. -/
def fitXY : GaussianFit := fit_of (neutral_population dfX dfY)

lemma neutral_population_dfXY :
    neutral_population dfX dfY = [(0, 0), (2, 2), (2, 0), (0, 2)] := by
  simp [neutral_population, dfX, dfY, List.filterMap]

lemma fitXY_eval : fitXY = ⟨1, 1, 4/3, 0, 4/3⟩ := by
  simp only [fitXY, fit_of, neutral_population_dfXY, GaussianFit.mk.injEq]
  refine ⟨?_, ?_, ?_, ?_, ?_⟩ <;>
    norm_num [mean_x, mean_y, cov_xx, cov_xy, cov_yy, listSum]

/-- Witness for C4: at the concrete input pair, the sigma-1 ellipse and the
sigma-2 ellipse of a `sigma_cutoff = 2` invocation satisfy all hypotheses and
the nesting conclusion. -/
theorem claim_C4_ellipses_nested_witness :
    (1, ellipse_at fitXY 1) ∈ ellipses_all dfX dfY 2 ∧
      (2, ellipse_at fitXY 2) ∈ ellipses_all dfX dfY 2 ∧
      1 < 2 ∧
      (0 : ℚ) < fitXY.sxx + fitXY.syy ∧ (0 : ℚ) < covDet fitXY ∧
      ((ellipse_at fitXY 1).center_x = (ellipse_at fitXY 2).center_x ∧
        (ellipse_at fitXY 1).center_y = (ellipse_at fitXY 2).center_y ∧
        (ellipse_at fitXY 1).angle = (ellipse_at fitXY 2).angle ∧
        (ellipse_at fitXY 1).width < (ellipse_at fitXY 2).width ∧
        (ellipse_at fitXY 1).height < (ellipse_at fitXY 2).height) := by
  have h1 : (1, ellipse_at fitXY 1) ∈ ellipses_all dfX dfY 2 :=
    List.mem_map.mpr ⟨1, by simp [List.range'], rfl⟩
  have h2 : (2, ellipse_at fitXY 2) ∈ ellipses_all dfX dfY 2 :=
    List.mem_map.mpr ⟨2, by simp [List.range'], rfl⟩
  have htr : (0 : ℚ) < fitXY.sxx + fitXY.syy := by
    rw [fitXY_eval]
    norm_num
  have hdet : (0 : ℚ) < covDet fitXY := by
    rw [fitXY_eval]
    norm_num [covDet]
  exact ⟨h1, h2, by norm_num, htr, hdet,
    claim_C4_ellipses_nested dfX dfY 2 1 2 _ _ h1 h2 (by norm_num) htr hdet⟩

/-- The Gaussian fit with the two coordinates exchanged. -/
def GaussianFit.swapXY (f : GaussianFit) : GaussianFit where
  cx := f.cy
  cy := f.cx
  sxx := f.syy
  sxy := f.sxy
  syy := f.sxx

lemma neutral_population_swap (fx fy : FitnessMatrix)
    (hpos : fy.positions = fx.positions) :
    neutral_population fy fx = (neutral_population fx fy).map Prod.swap := by
  simp only [neutral_population, hpos, List.map_filterMap]
  apply List.filterMap_congr
  intro p _
  cases fx.val p '∅' <;> cases fy.val p '∅' <;> simp

lemma mean_x_map_swap (pop : List (ℚ × ℚ)) :
    mean_x (pop.map Prod.swap) = mean_y pop := by
  simp [mean_x, mean_y, List.map_map, Function.comp_def]

lemma mean_y_map_swap (pop : List (ℚ × ℚ)) :
    mean_y (pop.map Prod.swap) = mean_x pop := by
  simp [mean_x, mean_y, List.map_map, Function.comp_def]

lemma cov_xx_map_swap (pop : List (ℚ × ℚ)) :
    cov_xx (pop.map Prod.swap) = cov_yy pop := by
  simp [cov_xx, cov_yy, mean_x_map_swap, List.map_map, Function.comp_def]

lemma cov_yy_map_swap (pop : List (ℚ × ℚ)) :
    cov_yy (pop.map Prod.swap) = cov_xx pop := by
  simp [cov_xx, cov_yy, mean_y_map_swap, List.map_map, Function.comp_def]

lemma cov_xy_map_swap (pop : List (ℚ × ℚ)) :
    cov_xy (pop.map Prod.swap) = cov_xy pop := by
  simp [cov_xy, mean_x_map_swap, mean_y_map_swap, List.map_map,
    Function.comp_def, mul_comm]

lemma fit_of_map_swap (pop : List (ℚ × ℚ)) :
    fit_of (pop.map Prod.swap) = (fit_of pop).swapXY := by
  simp [fit_of, GaussianFit.swapXY, mean_x_map_swap, mean_y_map_swap,
    cov_xx_map_swap, cov_yy_map_swap, cov_xy_map_swap]

lemma mahalanobis_sq_swapXY (f : GaussianFit) (x y : ℚ) :
    mahalanobis_sq f.swapXY y x = mahalanobis_sq f x y := by
  simp only [mahalanobis_sq, covDet, GaussianFit.swapXY]
  congr 1 <;> ring

lemma outside_cutoff_swapXY (f : GaussianFit) (sigma_cutoff : ℕ) (x y : ℚ) :
    outside_cutoff f.swapXY sigma_cutoff y x = outside_cutoff f sigma_cutoff x y := by
  simp [outside_cutoff, mahalanobis_sq_swapXY]

/-- C5 counterexample: exchanging the two input matrices does not exchange the
sensitive and resistant labels.  At the concrete pair `dfX, dfY` with
`sigma_cutoff = 2`, cell (0, 'A') is in the sensitive mask of the swapped
call, yet it is not in the resistant mask of the original call. -/
theorem claim_C5_counterexample :
    (sign_sensitive dfY dfX 2).val 0 'A' = true ∧
      (sign_resistant dfX dfY 2).val 0 'A' = false := by
  have hfit : fit_of (neutral_population dfY dfX) = ⟨1, 1, 4/3, 0, 4/3⟩ := by
    have hnp : neutral_population dfY dfX = [(0, 0), (2, 2), (0, 2), (2, 0)] := by
      simp [neutral_population, dfX, dfY, List.filterMap]
    simp only [fit_of, hnp, GaussianFit.mk.injEq]
    refine ⟨?_, ?_, ?_, ?_, ?_⟩ <;>
      norm_num [mean_x, mean_y, cov_xx, cov_xy, cov_yy, listSum]
  have hfit2 : fit_of (neutral_population dfX dfY) = ⟨1, 1, 4/3, 0, 4/3⟩ :=
    fitXY_eval
  constructor
  · simp only [sign_sensitive, hfit]
    simp [dfX, dfY, outside_cutoff, mahalanobis_sq, covDet]
    all_goals norm_num
  · simp only [sign_resistant, hfit2]
    simp [dfX, dfY, outside_cutoff, mahalanobis_sq, covDet]
    all_goals norm_num

/-- C5 amended: exchanging `matrix_x` and `matrix_y` (with their shared
position index) leaves the sensitive mask and the resistant mask unchanged
cell-for-cell — the labeling is preserved, not exchanged — and in particular
the union of flagged cells is unchanged. -/
theorem claim_C5_swap_preserves_masks (fx fy : FitnessMatrix)
    (sigma_cutoff : ℕ) (hpos : fy.positions = fx.positions)
    (p : ℕ) (r : Char) :
    (sign_sensitive fy fx sigma_cutoff).val p r
        = (sign_sensitive fx fy sigma_cutoff).val p r ∧
      (sign_resistant fy fx sigma_cutoff).val p r
        = (sign_resistant fx fy sigma_cutoff).val p r ∧
      ((sign_sensitive fy fx sigma_cutoff).val p r ||
          (sign_resistant fy fx sigma_cutoff).val p r)
        = ((sign_sensitive fx fy sigma_cutoff).val p r ||
          (sign_resistant fx fy sigma_cutoff).val p r) := by
  have hfit : fit_of (neutral_population fy fx)
      = (fit_of (neutral_population fx fy)).swapXY := by
    rw [neutral_population_swap fx fy hpos, fit_of_map_swap]
  have hs : (sign_sensitive fy fx sigma_cutoff).val p r
      = (sign_sensitive fx fy sigma_cutoff).val p r := by
    simp only [sign_sensitive, hfit]
    cases hx : fx.val p r <;> cases hy : fy.val p r
    · rfl
    · rfl
    · rfl
    · simp only []
      rw [outside_cutoff_swapXY]
      simp only [GaussianFit.swapXY]
      simp [Bool.and_comm, Bool.and_assoc, Bool.and_left_comm]
  have hr : (sign_resistant fy fx sigma_cutoff).val p r
      = (sign_resistant fx fy sigma_cutoff).val p r := by
    simp only [sign_resistant, hfit]
    cases hx : fx.val p r <;> cases hy : fy.val p r
    · rfl
    · rfl
    · rfl
    · simp only []
      rw [outside_cutoff_swapXY]
      simp only [GaussianFit.swapXY]
      simp [Bool.and_comm, Bool.and_assoc, Bool.and_left_comm]
  exact ⟨hs, hr, by rw [hs, hr]⟩

/-- Witness for the amended C5 at the concrete pair `dfX, dfY`. -/
theorem claim_C5_swap_preserves_masks_witness :
    dfY.positions = dfX.positions ∧
      ((sign_sensitive dfY dfX 2).val 0 'A'
          = (sign_sensitive dfX dfY 2).val 0 'A' ∧
        (sign_resistant dfY dfX 2).val 0 'A'
          = (sign_resistant dfX dfY 2).val 0 'A' ∧
        ((sign_sensitive dfY dfX 2).val 0 'A' ||
            (sign_resistant dfY dfX 2).val 0 'A')
          = ((sign_sensitive dfX dfY 2).val 0 'A' ||
            (sign_resistant dfX dfY 2).val 0 'A')) :=
  ⟨rfl, claim_C5_swap_preserves_masks dfX dfY 2 rfl 0 'A'⟩

/-- Embeds the pandas comparison `df_a.abs().ge(df_b.abs())` of
`src/visualization.py` (`shish_kabob_drug`, lines 879-880) at one cell:
true when both values are present and `|a| ≥ |b|`; any comparison with the
missing marker (NaN) is false. -/
def abs_ge (a b : Option ℚ) : Bool :=
  match a, b with
  | some x, some y => decide (|y| ≤ |x|)
  | _, _ => false

/-- Embeds `shish_kabob_drug` lines 878-880 at one cell:
`df = df1[df1.abs().ge(df2.abs())]` keeps the first replicate's value where
its magnitude is at least the second's, and `df.update(df2[df2.abs().ge(df1.abs())])`
then overwrites with the second replicate's value wherever that value is
present and of magnitude at least the first's. -/
def shish_value (a b : Option ℚ) : Option ℚ :=
  if abs_ge b a && b.isSome then b
  else if abs_ge a b then a
  else none

/-- Embeds `shish_kabob_drug` lines 881-883: keep the selected cell value only
where the resistant-or-sensitive mask is true
(`df.where(sign_resistant | sign_sensitive)`), then drop the synonymous
column (`df_masked.drop("∅", axis=1)`). -/
def shish_kabob_masked (df1 df2 : FitnessMatrix)
    (sens res : SignificanceMask) : FitnessMatrix where
  positions := df1.positions
  residues := df1.residues.filter fun r => r ≠ '∅'
  val := fun p r =>
    if res.val p r || sens.val p r then shish_value (df1.val p r) (df2.val p r)
    else none

/-- Embeds `shish_kabob_drug` lines 874-877: the positions kept for plotting
are those with at least one true cell in the OR of the two masks after each
mask's stop-codon column `'*'` is dropped
(`(sign_sensitive.drop("*", axis=1) | sign_resistant.drop("*", axis=1)).sum(axis=1) > 0`). -/
def sign_positions (sens res : SignificanceMask) : List ℕ :=
  sens.positions.filter fun p =>
    (sens.residues.filter fun r => r ≠ '*').any fun r => sens.val p r || res.val p r

/-- Embeds `shish_kabob_drug` line 887 (`df_masked.loc[sign_positions]`): the
matrix actually plotted, restricted to the significant positions. -/
def shish_kabob_plot (df1 df2 : FitnessMatrix)
    (sens res : SignificanceMask) : FitnessMatrix where
  positions := sign_positions sens res
  residues := (shish_kabob_masked df1 df2 sens res).residues
  val := (shish_kabob_masked df1 df2 sens res).val

/-- C7: in `shish_kabob_drug`, for every cell whose two replicate values are
present, the selected value is the one of larger absolute value (the second
replicate's value when the absolute values are equal), and it is kept only
when the cell is true in the sensitive or resistant mask; all other cells
become missing. -/
theorem claim_C7_greatest_magnitude_selection (df1 df2 : FitnessMatrix)
    (sens res : SignificanceMask) (p : ℕ) (r : Char) (x y : ℚ)
    (hx : df1.val p r = some x) (hy : df2.val p r = some y) :
    (shish_kabob_masked df1 df2 sens res).val p r =
      if sens.val p r || res.val p r then
        (if |x| ≤ |y| then some y else some x)
      else none := by
  simp only [shish_kabob_masked, hx, hy, Bool.or_comm]
  by_cases hm : sens.val p r || res.val p r
  · simp only [hm, if_true]
    by_cases hle : |x| ≤ |y|
    · simp [shish_value, abs_ge, hle]
    · have hge : |y| ≤ |x| := le_of_not_le hle
      simp [shish_value, abs_ge, hle, hge]
  · simp [hm]

/-- Example sensitive mask for the shish-kabob witnesses: only cell (0, 'A')
is flagged. -/
def mSensEx : SignificanceMask where
  positions := [0, 1, 2, 3]
  residues := ['∅', 'A', '*']
  val := fun p r => decide (p = 0) && decide (r = 'A')

/-- Example resistant mask for the shish-kabob witnesses: only cell (1, '*')
is flagged. -/
def mResEx : SignificanceMask where
  positions := [0, 1, 2, 3]
  residues := ['∅', 'A', '*']
  val := fun p r => decide (p = 1) && decide (r = '*')

/-- Witness for C7 at the concrete cell (0, 'A') of the example pair, where
`df1` holds `-5` and `df2` holds `-5`. -/
theorem claim_C7_greatest_magnitude_selection_witness :
    dfX.val 0 'A' = some (-5) ∧ dfY.val 0 'A' = some (-5) ∧
      (shish_kabob_masked dfX dfY mSensEx mResEx).val 0 'A' =
        if mSensEx.val 0 'A' || mResEx.val 0 'A' then
          (if |(-5 : ℚ)| ≤ |(-5 : ℚ)| then some (-5) else some (-5))
        else none :=
  ⟨by simp [dfX], by simp [dfY],
    claim_C7_greatest_magnitude_selection dfX dfY mSensEx mResEx 0 'A' (-5) (-5)
      (by simp [dfX]) (by simp [dfY])⟩

/-- C8: in `shish_kabob_drug` the plotted positions are computed after the
stop-codon column `'*'` is dropped from both significance masks, so a
position whose only significant cells are stop mutations is excluded from the
plot; and the synonymous column `'∅'` never appears among the plotted
residues. -/
theorem claim_C8_stop_dropped_syn_absent (df1 df2 : FitnessMatrix)
    (sens res : SignificanceMask) (p : ℕ)
    (hstop : ∀ r ∈ sens.residues, r ≠ '*' →
      sens.val p r = false ∧ res.val p r = false) :
    p ∉ sign_positions sens res ∧
      '∅' ∉ (shish_kabob_plot df1 df2 sens res).residues := by
  constructor
  · intro hmem
    obtain ⟨-, hany⟩ := List.mem_filter.mp hmem
    obtain ⟨r, hr, hval⟩ := List.any_eq_true.mp hany
    obtain ⟨hrres, hrne⟩ := List.mem_filter.mp hr
    obtain ⟨hsf, hrf⟩ := hstop r hrres (by simpa using hrne)
    simp [hsf, hrf] at hval
  · intro hmem
    obtain ⟨-, hne⟩ := List.mem_filter.mp hmem
    simp at hne

/-- Witness for C8 at the concrete example masks: position 1 is significant
only in the stop column, so it is excluded from the plotted positions, and
the synonymous column is absent from the plotted residues. -/
theorem claim_C8_stop_dropped_syn_absent_witness :
    (∀ r ∈ mSensEx.residues, r ≠ '*' →
        mSensEx.val 1 r = false ∧ mResEx.val 1 r = false) ∧
      (1 ∉ sign_positions mSensEx mResEx ∧
        '∅' ∉ (shish_kabob_plot dfX dfY mSensEx mResEx).residues) :=
  ⟨by decide, claim_C8_stop_dropped_syn_absent dfX dfY mSensEx mResEx 1 (by decide)⟩

/-- Embeds Python's `sorted` over a list of sample/drug names
(code-point lexicographic string order, as in CPython for `str`). -/
def pySorted (l : List String) : List String :=
  l.mergeSort fun a b => decide (a ≤ b)

/-- The ten characters stripped by `x.rstrip("1234567890")` in
`src/visualization.py` (lines 779, 1052, 1287). -/
def is_strip_digit (c : Char) : Bool :=
  ['1', '2', '3', '4', '5', '6', '7', '8', '9', '0'].contains c

/-- Embeds `x.rstrip("1234567890")`: remove the longest trailing run of
decimal-digit characters from a sample name. -/
def rstrip_digits (s : String) : String :=
  ⟨(s.data.reverse.dropWhile is_strip_digit).reverse⟩

/-- Embeds `sorted(set(x.rstrip("1234567890") for x in fitness_dict))` of
`gaussian_replica_pair_draw` (line 779), `shish_kabob_draw` (line 1052) and
`drug_pairs_draw` (line 1287): the deduplicated, sorted list of drug names. -/
def drugs_all (samples : List String) : List String :=
  pySorted (samples.map rstrip_digits).dedup

/-- Embeds the iteration order of `heatmap_draw` (line 399):
`for i, sample in enumerate(sorted(df_dict))`. -/
def heatmap_draw_sample_order (samples : List String) : List String :=
  pySorted samples

/-- Embeds the iteration order of `histogram_fitness_draw` (line 605):
`samples = list(sorted(fitness_dict))`. -/
def histogram_fitness_draw_sample_order (samples : List String) : List String :=
  pySorted samples

/-- Embeds the iteration order of `gaussian_replica_pair_draw` (line 791):
`for i, drug in enumerate(sorted(drugs_all))`. -/
def gaussian_replica_pair_draw_drug_order (samples : List String) : List String :=
  pySorted (drugs_all samples)

/-- Embeds the iteration order of `shish_kabob_draw` (line 1077):
`for i, drug in enumerate(drugs_all)` over the already-sorted `drugs_all`. -/
def shish_kabob_draw_drug_order (samples : List String) : List String :=
  drugs_all samples

/-- Embeds the iteration order of `drug_pairs_draw` (lines 1299-1300), which
iterates `drugs_all` for both subplot axes. -/
def drug_pairs_draw_drug_order (samples : List String) : List String :=
  drugs_all samples

/-- C9: every batch drawing function iterates its samples/drug names in
ascending alphabetical order: all five iteration orders are sorted for every
input key list. -/
theorem claim_C9_batch_iteration_sorted (samples : List String) :
    List.Sorted (· ≤ ·) (heatmap_draw_sample_order samples) ∧
      List.Sorted (· ≤ ·) (histogram_fitness_draw_sample_order samples) ∧
      List.Sorted (· ≤ ·) (gaussian_replica_pair_draw_drug_order samples) ∧
      List.Sorted (· ≤ ·) (shish_kabob_draw_drug_order samples) ∧
      List.Sorted (· ≤ ·) (drug_pairs_draw_drug_order samples) :=
  ⟨List.sorted_mergeSort' samples, List.sorted_mergeSort' samples,
    List.sorted_mergeSort' _, List.sorted_mergeSort' _, List.sorted_mergeSort' _⟩

lemma rstrip_digits_append_digits (b d : String)
    (hd : ∀ c ∈ d.data, is_strip_digit c = true) :
    rstrip_digits (b ++ d) = rstrip_digits b := by
  simp only [rstrip_digits, String.data_append, List.reverse_append]
  rw [List.dropWhile_append_of_pos]
  intro c hc
  exact hd c (List.mem_reverse.mp hc)

/-- C10: the batch drawing functions derive drug names by stripping all
trailing decimal digits from each sample name and deduplicating, so two
sample names that differ only in trailing digits strip to the same drug name,
and listing both among the samples yields the same drug list as listing
either one. -/
theorem claim_C10_trailing_digits_same_drug (b d1 d2 : String)
    (l : List String)
    (h1 : ∀ c ∈ d1.data, is_strip_digit c = true)
    (h2 : ∀ c ∈ d2.data, is_strip_digit c = true) :
    rstrip_digits (b ++ d1) = rstrip_digits (b ++ d2) ∧
      drugs_all ((b ++ d1) :: (b ++ d2) :: l) = drugs_all ((b ++ d1) :: l) := by
  have e1 := rstrip_digits_append_digits b d1 h1
  have e2 := rstrip_digits_append_digits b d2 h2
  constructor
  · rw [e1, e2]
  · simp only [drugs_all, List.map_cons, e1, e2]
    rw [List.dedup_cons_of_mem (List.mem_cons_self _ _)]

/-- Witness for C10: `"AMP1"` and `"AMP10"` strip to the drug name `"AMP"`
and contribute a single entry to the drug list alongside `"CTX1"`. -/
theorem claim_C10_trailing_digits_same_drug_witness :
    (∀ c ∈ ("1" : String).data, is_strip_digit c = true) ∧
      (∀ c ∈ ("10" : String).data, is_strip_digit c = true) ∧
      (rstrip_digits ("AMP" ++ "1") = rstrip_digits ("AMP" ++ "10") ∧
        drugs_all (("AMP" ++ "1") :: ("AMP" ++ "10") :: ["CTX1"]) =
          drugs_all (("AMP" ++ "1") :: ["CTX1"])) :=
  ⟨by decide, by decide,
    claim_C10_trailing_digits_same_drug "AMP" "1" "10" ["CTX1"]
      (by decide) (by decide)⟩

/-- Witness for C3: the neutral point (0, 0) of the concrete pair `dfX, dfY`
traces back to a synonymous cell present in both matrices. -/
theorem claim_C3_missing_cells_unclassified_witness :
    (((0 : ℚ), (0 : ℚ)) ∈ neutral_population dfX dfY) ∧
      ∃ p2, p2 ∈ dfX.positions ∧ dfX.val p2 '∅' = some 0 ∧
        dfY.val p2 '∅' = some 0 :=
  ⟨by rw [neutral_population_dfXY]; exact List.mem_cons_self _ _,
    (claim_C3_missing_cells_unclassified dfX dfY 2 0 'A').2 (0, 0)
      (by rw [neutral_population_dfXY]; exact List.mem_cons_self _ _)⟩
